import Mathlib

/-!
Verification of the task control plane of the eigent backend
(`backend/app/service/chat_service.py`, `backend/app/controller/chat_controller.py`,
`backend/app/utils/workforce.py`) against its natural-language specification.

The Python source is shallowly embedded: pure helpers become Lean functions,
the `step_solve` dispatcher loop becomes explicit state passing over a
dispatcher state, and results of external collaborators (LLM agent calls,
the camel orchestration engine's decomposition) are taken as explicit inputs
of the embedded functions.  File-system side effects of the dispatcher that
no claim observes (speculative-folder cleanup in the simple-answer path,
environment variables) are omitted; a comment marks each omission.

`backend/app/service/task.py` (the `TaskLock` actor: FIFO action queue,
`add_conversation`, `add_background_task`) and `backend/app/model/chat.py`
(`Status`, `sse_json`) are not part of the provided sources; the parts the
claims need are modelled from the spec and marked as such.
-/

set_option maxHeartbeats 1000000

namespace Eigent

/-! ## Basic data model -/

/-- Modelled from the spec (`backend/app/model/chat.py` is not in the provided
sources): task status, `status ∈ \x7bconfirming, confirmed, processing, done\x7d`. -/
inductive Status where
  | confirming
  | confirmed
  | processing
  | done
deriving DecidableEq, Repr

/-- Role of a conversation-history entry (`task_lock.add_conversation` call
sites in `chat_service.py` use `assistant` and `task_result`; `user` appears
in the spec's ConversationEntry). -/
inductive Role where
  | user
  | assistant
  | task_result
deriving DecidableEq, Repr

/-- Content of a conversation-history entry: either free text or the
structured dict `\x7btask_content, task_result, working_directory\x7d` appended by
the SkipTask / End / NewTaskState branches of `step_solve`. -/
inductive EntryContent where
  | text (s : String)
  | record (task_content task_result working_directory : String)
deriving DecidableEq, Repr

/-- One conversation-history entry (`\x7b'role': role, 'content': content\x7d`). -/
structure Entry where
  role : Role
  content : EntryContent
deriving DecidableEq, Repr

/-- Embedding of `camel.tasks.Task` as used by `chat_service.py` /
`workforce.py`: id, content, state, result and the subtask tree.  The
`parent` back-pointer and `additional_info` dict are not represented (no
claim reads them; the tree structure carries the same information). -/
inductive TaskT where
  | mk (id : String) (content : String) (state : String) (result : String)
      (subtasks : List TaskT)

def TaskT.id : TaskT → String
  | .mk i _ _ _ _ => i

def TaskT.content : TaskT → String
  | .mk _ c _ _ _ => c

def TaskT.state : TaskT → String
  | .mk _ _ s _ _ => s

def TaskT.result : TaskT → String
  | .mk _ _ _ r _ => r

def TaskT.subtasks : TaskT → List TaskT
  | .mk _ _ _ _ subs => subs

def TaskT.withContent (t : TaskT) (c : String) : TaskT :=
  .mk t.id c t.state t.result t.subtasks

def TaskT.withSubtasks (t : TaskT) (subs : List TaskT) : TaskT :=
  .mk t.id t.content t.state t.result subs

def TaskT.withState (t : TaskT) (s : String) : TaskT :=
  .mk t.id t.content s t.result t.subtasks

@[simp] theorem TaskT.id_mk (i c s r : String) (subs : List TaskT) :
    (TaskT.mk i c s r subs).id = i := rfl

@[simp] theorem TaskT.content_mk (i c s r : String) (subs : List TaskT) :
    (TaskT.mk i c s r subs).content = c := rfl

@[simp] theorem TaskT.state_mk (i c s r : String) (subs : List TaskT) :
    (TaskT.mk i c s r subs).state = s := rfl

@[simp] theorem TaskT.result_mk (i c s r : String) (subs : List TaskT) :
    (TaskT.mk i c s r subs).result = r := rfl

@[simp] theorem TaskT.subtasks_mk (i c s r : String) (subs : List TaskT) :
    (TaskT.mk i c s r subs).subtasks = subs := rfl

/-! ## `question_confirm` (chat_service.py lines 1129-1172) -/

/-- Result of `agent.step(...)` as observed by `question_confirm`: the call
raises, returns a falsy response / empty `msgs`, or returns a first message
with the given content. -/
inductive AgentResp where
  | raises
  | noMsgs
  | msg (content : String)
deriving DecidableEq, Repr

/-- Python substring containment (`needle in haystack`). -/
def strContains (haystack needle : String) : Bool :=
  decide (needle.data <:+: haystack.data)

/-- Python `str.strip()` over the character list: drop whitespace from both
ends (Python also strips some further Unicode space characters; the
contents compared here are ASCII). -/
def pyStrip (l : List Char) : List Char :=
  ((l.dropWhile Char.isWhitespace).reverse.dropWhile Char.isWhitespace).reverse

/-- Python `str.lower()` over the character list. -/
def pyLower (l : List Char) : List Char :=
  l.map Char.toLower

/-- Embedding of `question_confirm` (chat_service.py 1129-1172).  The
surrounding prompt construction does not influence the return value; the
agent's response is the explicit input.  `True` = complex task.  The Python
`try` block catches every exception and returns `True`; responses with no
messages or empty content also return `True`; otherwise the result is
whether `"yes"` occurs in `content.strip().lower()`. -/
def question_confirm : AgentResp → Bool
  | .raises => true
  | .noMsgs => true
  | .msg content =>
      if content = "" then true
      else decide ("yes".data <:+: pyLower (pyStrip content.data))

/-! ## `update_sub_tasks` (chat_service.py lines 1102-1115) -/

/-- The `update_tasks` dict built in the UpdateTask branch
(`\x7bitem.id: item for item in item.data.task\x7d`): id to new content.
Built by `dictOf` below; looked up with `List.lookup`. -/
abbrev EditMap := List (String × String)

/-- Python dict comprehension over an association list: later bindings for
the same key override earlier ones.  The result has no duplicate keys and
`List.lookup` on it returns the last binding of the source list. -/
def dictOf (l : List (String × String)) : EditMap :=
  l.foldl (fun acc p => (acc.filter (fun q => q.1 ≠ p.1)) ++ [p]) []

/-- The while loop of `update_sub_tasks` at one level: pop entries whose id
is not a key of the map (without advancing), otherwise overwrite `content`,
apply `childF` — the recursive call one level deeper — to the children in
place, and advance. -/
def updateLevel (m : EditMap) (childF : List TaskT → List TaskT) :
    List TaskT → List TaskT
  | [] => []
  | t :: rest =>
      match List.lookup t.id m with
      | some c =>
          TaskT.mk t.id c t.state t.result (childF t.subtasks)
            :: updateLevel m childF rest
      | none => updateLevel m childF rest

/-- Embedding of the body of `update_sub_tasks` with `fuel` = remaining
levels below this one that may still be processed (the Python `depth`
argument: a call at depth `d ≤ 5` runs the while loop, and its recursive
call at depth `d + 1` is modelled by fuel `5 - d`; at fuel `0` the
recursive call hits the `depth > 5` guard, returns `[]` and — because the
caller discards the return value — leaves the child list unchanged). -/
def updateSubTasksAux (m : EditMap) : Nat → List TaskT → List TaskT
  | 0 => updateLevel m (fun subs => subs)
  | f + 1 => updateLevel m (updateSubTasksAux m f)

/-- Embedding of `update_sub_tasks` (chat_service.py 1102-1115): the value
returned to the caller.  The `depth > 5` guard returns `[]` without touching
the list. -/
def update_sub_tasks (sub_tasks : List TaskT) (update_tasks : EditMap)
    (depth : Nat := 0) : List TaskT :=
  if depth > 5 then [] else updateSubTasksAux update_tasks (5 - depth) sub_tasks

/-- Reference formulation of one level of `update_sub_tasks`: keep exactly
the entries whose id is a key of the map, in order, with content replaced,
recursing into children while fuel lasts (fuel `0` leaves the children
untouched, like the discarded `depth > 5` recursive call). -/
def updateSubTasksSpec (m : EditMap) : Nat → List TaskT → List TaskT
  | 0, l =>
      l.filterMap fun t =>
        (List.lookup t.id m).map fun c =>
          TaskT.mk t.id c t.state t.result t.subtasks
  | f + 1, l =>
      l.filterMap fun t =>
        (List.lookup t.id m).map fun c =>
          TaskT.mk t.id c t.state t.result (updateSubTasksSpec m f t.subtasks)

/-! ## `tree_sub_tasks` and `add_sub_tasks` (chat_service.py 1084-1126) -/

/-- Embedding of `tree_sub_tasks` (chat_service.py 1084-1099): renders the
subtask tree up to depth 5, dropping tasks with empty content.  The rendered
node dict `\x7bid, content, state, subtasks\x7d` is represented by a `TaskT` whose
`result` field is `""`. -/
def tree_sub_tasks : Nat → List TaskT → List TaskT
  | depth, l =>
      if depth > 5 then []
      else
        (l.filter (fun t => t.content ≠ "")).map fun t =>
          TaskT.mk t.id t.content t.state ""
            (if h : depth + 1 > 5 then [] else tree_sub_tasks (depth + 1) t.subtasks)
termination_by depth _ => 6 - depth
decreasing_by
  simp_wf
  omega

/-- Embedding of `add_sub_tasks` (chat_service.py 1118-1126): append a fresh
subtask for every edit-list entry whose id is the empty string, numbering
from the current subtask count plus one. -/
def add_sub_tasks (camel_task : TaskT) (update_tasks : List (String × String)) :
    TaskT :=
  update_tasks.foldl
    (fun acc p =>
      if p.1 = "" then
        acc.withSubtasks (acc.subtasks ++
          [TaskT.mk (acc.id ++ "." ++ toString (acc.subtasks.length + 1)) p.2 "" "" []])
      else acc)
    camel_task

/-! ## `timeout_stream_wrapper` (chat_controller.py lines 41-72) -/

/-- One step of the wrapped upstream sequence, with the (idealised, discrete)
delay since the previous step: the generator produces its next value after
`delay` seconds, raises `CancelledError` after `delay` seconds, or the list
ends (`StopAsyncIteration`). -/
inductive StreamItem where
  | ev (delay : Nat) (payload : String)
  | cancel (delay : Nat)
deriving DecidableEq, Repr

/-- What the wrapper itself can emit downstream: forwarded data, or an error
event (the code never produces one — the error-on-timeout line is commented
out — which the theorems make explicit). -/
inductive WrapOut where
  | data (payload : String)
  | errorEvent (message : String)
deriving DecidableEq, Repr

/-- How the wrapped stream terminates. -/
inductive WrapDone where
  | completed
  | idleTimeout
  | cancelled
deriving DecidableEq, Repr

/-- Embedding of `timeout_stream_wrapper` (chat_controller.py 41-72).
`last_data_time` is reset after every received item, so each item's delay is
compared against the full `timeout_seconds` bound.  An item arriving within
the bound is forwarded and the timer restarts; otherwise `wait_for` raises
`TimeoutError` and the wrapper breaks out of the loop silently (no error
event).  An upstream `CancelledError` arriving in time is re-raised. -/
def timeout_stream_wrapper (timeout_seconds : Nat) :
    List StreamItem → List WrapOut × WrapDone
  | [] => ([], .completed)
  | .ev d p :: rest =>
      if d ≤ timeout_seconds then
        let r := timeout_stream_wrapper timeout_seconds rest
        (.data p :: r.1, r.2)
      else ([], .idleTimeout)
  | .cancel d :: _ =>
      if d ≤ timeout_seconds then ([], .cancelled)
      else ([], .idleTimeout)

/-! ## Conversation-history length check (chat_service.py lines 155-174) -/

/-- Python `len(entry.get('content', ''))` as computed by
`check_conversation_history_length`: character count for string contents,
and the number of dict keys — always 3, since every `task_result` entry is
appended with exactly the keys `task_content`, `task_result`,
`working_directory` — for structured contents. -/
def entryLen (e : Entry) : Nat :=
  match e.content with
  | .text s => s.length
  | .record _ _ _ => 3

/-- Embedding of `check_conversation_history_length` (chat_service.py
155-174): `(is_exceeded, total_length)` with the default
`max_length = 100000`.  An absent or empty history short-circuits to
`(False, 0)`, which coincides with the generic sum. -/
def check_conversation_history_length (history : List Entry)
    (max_length : Nat := 100000) : Bool × Nat :=
  let total := (history.map entryLen).sum
  (total > max_length, total)

/-- Stated from the spec's words, for comparison with the source-derived
`entryLen`: the cumulative CHARACTER length of an entry's content — for a
structured `task_result` entry, the characters of its three string fields. -/
def entryCharLenSpec (e : Entry) : Nat :=
  match e.content with
  | .text s => s.length
  | .record tc tr wd => tc.length + tr.length + wd.length

/-- Cumulative character length of a conversation history, following the
spec's words ("cumulative character length of entry contents"). -/
def historyCharLenSpec (history : List Entry) : Nat :=
  (history.map entryCharLenSpec).sum

/-! ## File manifest of `build_conversation_context` (chat_service.py
lines 177-228) -/

/-- A directory tree standing for the part of the file system below one
directory: the file names in the directory and its named subdirectories,
as traversed by `os.walk`. -/
inductive FSTree where
  | node (files : List String) (dirs : List (String × FSTree))

/-- Python `str.startswith` over the character lists. -/
def strStartsWith (s pre : String) : Bool :=
  pre.data.isPrefixOf s.data

/-- Python `str.endswith` over the character lists. -/
def strEndsWith (s suf : String) : Bool :=
  suf.data.isSuffixOf s.data

/-- The file-name filter of the walk in `build_conversation_context`
(chat_service.py 213): not hidden, not `.pyc`, not `.tmp`. -/
def fileKept (f : String) : Bool :=
  ¬ strStartsWith f "." && ¬ strEndsWith f ".pyc" && ¬ strEndsWith f ".tmp"

/-- The directory pruning of the walk (chat_service.py 211): hidden
directories and `node_modules`, `__pycache__`, `venv` are not descended
into. -/
def dirKept (d : String) : Bool :=
  ¬ strStartsWith d "." && d ∉ ["node_modules", "__pycache__", "venv"]

mutual

/-- Files reachable from a tree by the pruned `os.walk`, as (relative
directory components, file name) pairs. -/
def walkTree : FSTree → List (List String × String)
  | .node files dirs =>
      (files.filter fileKept).map (fun f => ([], f)) ++ walkDirs dirs

/-- Walk a list of subdirectories, skipping pruned ones (`dirs[:] = ...` in
the source filters before recursing) and prefixing each child's relative
path with the subdirectory name. -/
def walkDirs : List (String × FSTree) → List (List String × String)
  | [] => []
  | (d, t) :: rest =>
      (if dirKept d then (walkTree t).map (fun p => (d :: p.1, p.2)) else []) ++
      walkDirs rest

end

/-- The file system visible to `build_conversation_context`: which working
directories exist (`os.path.exists`) and their trees. -/
abbrev FileSystem := List (String × FSTree)

/-- Join a working directory, relative components and a file name into an
absolute path (the chain of `os.path.join` separators along the walk;
`os.path.abspath` is the identity here, the working directories recorded
in the history being absolute). -/
def joinPath (wd : String) (comps : List String) (f : String) : String :=
  (comps ++ [f]).foldl (fun acc s => acc ++ "/" ++ s) wd

/-- The absolute paths of the generated files below one working directory
(chat_service.py 208-216): empty when the directory does not exist. -/
def collectFiles (fs : FileSystem) (wd : String) : List String :=
  match List.lookup wd fs with
  | none => []
  | some t => (walkTree t).map (fun p => joinPath wd p.1 p.2)

/-- The working directories referenced by the history's `task_result`
entries (chat_service.py 193-199): structured contents with a truthy
(non-empty) `working_directory`, collected into a set — modelled as a
deduplicated list, the downstream use being order-insensitive. -/
def historyWorkingDirs (history : List Entry) : List String :=
  (history.filterMap fun e =>
      match e.role, e.content with
      | .task_result, .record _ _ wd => if wd = "" then none else some wd
      | _, _ => none).dedup

/-- The deduplicated, sorted file manifest that `build_conversation_context`
appends after the rendered turns (chat_service.py 205-224):
`all_generated_files` is a set accumulated across all referenced working
directories, listed in sorted order. -/
def build_conversation_context_files (fs : FileSystem) (history : List Entry) :
    List String :=
  List.insertionSort (· ≤ ·)
    (((historyWorkingDirs history).flatMap (collectFiles fs)).dedup)

/-! ## `handle_decompose_append_task` (workforce.py lines 196-294) -/

/-- Result of `self._decompose_task(...)` as observed by
`handle_decompose_append_task`: either a generator of batches — together
with the state of `task.subtasks` after the generator is exhausted, which
the camel decompose populates as a side effect — or a plain list. -/
inductive DecomposeOut where
  | gens (batches : List (List TaskT)) (taskSubtasksAfter : List TaskT)
  | direct (l : List TaskT)

/-- The subtasks collected from the decomposition result before the fallback
(workforce.py 255-271): the concatenated generator batches, falling back to
`task.subtasks` when the generator yielded nothing; or the direct list. -/
def collectedSubtasks : DecomposeOut → List TaskT
  | .gens batches after =>
      let subs := batches.flatten
      if subs.isEmpty && !after.isEmpty then after else subs
  | .direct l => l

/-- Subtasks recorded on the task object by the external camel
`Task.decompose` as a side effect of `_decompose_task` (the source reads
them back at workforce.py 267). -/
def decomposeAfterSubs : DecomposeOut → List TaskT
  | .gens _ after => after
  | .direct l => l

/-- Embedding of `handle_decompose_append_task` (workforce.py 196-294),
returning the updated task and the returned subtask list.  `valid` is the
verdict of the external `validate_task_content`; `out` is the result of the
external `_decompose_task` call.  The temporary `coordinator_context`
prepend is undone before return (workforce.py 239-249), so `task.content`
is unchanged.  The `reset` flag (workforce.py 229-232) resets only
engine-internal state and `self._task`; the `_pending_tasks.extendleft`
and the streaming callbacks likewise mutate engine / dispatcher closures,
not the task, and are modelled at the call sites. -/
def handle_decompose_append_task (task : TaskT) (valid : Bool)
    (out : DecomposeOut) : TaskT × List TaskT :=
  if ¬ valid then
    (TaskT.mk task.id task.content "FAILED"
        "Task failed: Invalid or empty content provided" task.subtasks,
      [TaskT.mk task.id task.content "FAILED"
        "Task failed: Invalid or empty content provided" task.subtasks])
  else
    let task₁ := (task.withState "FAILED").withSubtasks (decomposeAfterSubs out)
    let subs := collectedSubtasks out
    if subs.isEmpty then
      let fallback := TaskT.mk (task.id ++ ".1") task.content "" "" []
      (task₁.withSubtasks [fallback], [fallback])
    else
      (task₁, subs)

/-- The `stream_state["subtasks"]` accumulation of the `on_stream_batch`
callbacks installed around `handle_decompose_append_task` in `step_solve`
(chat_service.py 441-445, 786-790): every batch — including the final
callback with the returned subtasks (workforce.py 288-292) — is appended,
keeping only the first task seen per id. -/
def dedupById (l : List TaskT) : List TaskT :=
  (l.foldl
    (fun acc t => if acc.2.contains t.id then acc else (acc.1 ++ [t], acc.2 ++ [t.id]))
    (([] : List TaskT), ([] : List String))).1

/-- The batches delivered to `on_stream_batch` during one
`handle_decompose_append_task` call: the generator batches (workforce.py
259-263) followed by the final full list (workforce.py 288-292). -/
def streamedBatches (task : TaskT) (valid : Bool) (out : DecomposeOut) :
    List TaskT :=
  match out with
  | .gens batches _ =>
      dedupById (batches.flatten ++ (handle_decompose_append_task task valid out).2)
  | .direct _ => dedupById (handle_decompose_append_task task valid out).2

/-! ## The dispatcher loop `step_solve` (chat_service.py lines 236-1053)

The loop owns: the local variables of `step_solve` (`start_event_loop`,
`camel_task`, `workforce`, `sub_tasks`, `summary_task_content`,
`last_completed_task_result`, the implicitly bound `mcp`) and the
`task_lock` fields it mutates (`status`, `conversation_history`,
`last_task_result`, `summary_generated`, `decompose_sub_tasks`,
`summary_task_content`).  External calls — the LLM agents and the camel
engine — are represented by oracle fields carried on the dequeued action.
Stream events are values `(name, payload)`; engine invocations, background
spawns and their registration (`task_lock.add_background_task`), and actor
cleanup (`delete_task_lock`) are recorded in an effect trace. -/

/-- JSON-like payload of a stream event (`sse_json` serialises
`(name, payload)`; the model keeps the structured value). -/
inductive PV where
  | null
  | str (s : String)
  | num (n : Nat)
  | obj (fields : List (String × PV))
  | taskTree (ts : List TaskT)

/-- Modelled from the spec (`sse_json` lives in the absent
`backend/app/model/chat.py`): a stream event is
`StreamEvent \x7bname, payload\x7d`, emitted in production order. -/
structure Ev where
  name : String
  payload : PV

/-- String field lookup on an object payload with a default
(Python `data.get(key, default)` where the value is a string). -/
def pvGetStr (pv : PV) (k : String) (dflt : String) : String :=
  match pv with
  | .obj fields =>
      match List.lookup k fields with
      | some (.str s) => s
      | _ => dflt
  | _ => dflt

/-- Field lookup returning the payload value (Python `data.get(key)`,
`None` when absent). -/
def pvGetField (pv : PV) (k : String) : PV :=
  match pv with
  | .obj fields =>
      match List.lookup k fields with
      | some v => v
      | none => .null
  | _ => .null

/-- Kinds of background work spawned by the dispatcher
(`asyncio.create_task` call sites in `step_solve`). -/
inductive BgKind where
  | decomposition
  | engineExec
  | mcpInstall
  | supplementExec
deriving DecidableEq, Repr

/-- Observable side effects of one dispatch step, in program order:
background spawns and their registration with the task lock, engine
invocations, actor cleanup, agent reset, and the current-task-id update. -/
inductive Eff where
  | spawn (k : BgKind)
  | register (k : BgKind)
  | engStop
  | engStopGraceful
  | engPause
  | engResume
  | engAddWorker
  | engAddTask
  | engRemoveTask
  | deleteTaskLock
  | agentReset
  | setCurrentTask (id : String)
deriving DecidableEq, Repr

/-- The dispatcher's view of the orchestration engine (`workforce._running`
and `workforce._state.name == 'PAUSED'` are the only engine fields the
dispatcher reads). -/
structure Wf where
  running : Bool
  paused : Bool
deriving DecidableEq, Repr

/-- Result of a `question_agent.step(...)` call in the simple-answer paths:
the call raises, or returns the message contents. -/
inductive StepResp where
  | raises
  | ok (msgs : List String)
deriving DecidableEq, Repr

/-- Result of the bounded-timeout `summary_task(...)` call in the
NewTaskState branch. -/
inductive SummaryResp where
  | ok (s : String)
  | timedOut
  | raises
deriving DecidableEq, Repr

/-- Pass-through actions forwarded verbatim as stream events
(chat_service.py 882-907). -/
inductive PassKind where
  | create_agent
  | activate_agent
  | deactivate_agent
  | assign_task
  | activate_toolkit
  | deactivate_toolkit
  | ask
  | search_mcp
deriving DecidableEq, Repr

/-- Event name of a pass-through action. -/
def passName : PassKind → String
  | .create_agent => "create_agent"
  | .activate_agent => "activate_agent"
  | .deactivate_agent => "deactivate_agent"
  | .assign_task => "assign_task"
  | .activate_toolkit => "activate_toolkit"
  | .deactivate_toolkit => "deactivate_toolkit"
  | .ask => "ask"
  | .search_mcp => "search_mcp"

/-- One dequeued action, with the responses of the external collaborators
that its handling consumes carried as oracle fields (the LLM and engine
results are inputs of the embedded handler, not modelled computations). -/
inductive Act where
  | improve (q : String) (newTaskId : Option String) (confirm : AgentResp)
      (simple : StepResp)
  | start
  | updateTask (tasks : List (String × String))
  | addTask (content : String) (taskId : Option String) (projectId : String)
  | removeTask (taskId : String) (projectId : String)
  | skipTask (projectId : String)
  | taskState (data : PV)
  | newTaskState (data : PV) (oldResult : String) (confirm : AgentResp)
      (simple : StepResp) (decompValid : Bool) (decomp : DecomposeOut)
      (summary : SummaryResp)
  | passthrough (k : PassKind) (data : PV)
  | writeFile (data : String) (processTaskId : String)
  | notice (data : String) (processTaskId : String)
  | terminal (data : String) (processTaskId : String)
  | installMcp
  | pauseAct
  | resumeAct
  | decomposeText (projectId taskId content : String)
  | decomposeProgress (data : PV)
  | newAgent
  | endAction (data : Option String) (resultOracle : String)
  | supplement (q : String)
  | budgetNotEnough
  | stopAction

/-- Per-task constants of one `step_solve` invocation: the `options`
payload, plus the oracle responses consumed when the implicit bootstrap
turn (`start_event_loop`) handles a non-Improve first action. -/
structure Opts where
  question : String
  taskId : String
  projectId : String
  hasAttaches : Bool
  summaryPrompt : String
  newAgents : Nat
  workingDir : String
  bootConfirm : AgentResp
  bootSimple : StepResp

/-- The dispatcher state: `step_solve` locals plus the `task_lock` fields
the loop reads and writes. -/
structure DState where
  startEventLoop : Bool
  status : Status
  history : List Entry
  lastTaskResult : String
  summaryGenerated : Bool
  workforce : Option Wf
  mcpDefined : Bool
  camelTask : Option TaskT
  subTasksCache : List TaskT
  decomposeSubTasks : List TaskT
  summaryTaskContent : String
  lastCompleted : String

/-- Result of dispatching one action: emitted events, successor state,
effect trace, and whether the loop breaks (Stop / disconnect). -/
structure HR where
  events : List Ev
  st : DState
  trace : List Eff
  term : Bool

/-- The context separator inserted by `handle_decompose_append_task` and
split off again by the history bookkeeping of `step_solve`. -/
def currentTaskMarker : List Char := "=== CURRENT TASK ===".data

/-- Python `str.split(sep)` for the fixed non-empty separator
`currentTaskMarker`: greedy left-to-right scan, accumulating the current
segment in reverse.  `fuel` bounds the number of scan steps; every step
consumes at least one character, so one unit per input character
suffices and the zero-fuel arm is never reached from `pySplitMarker`. -/
def pySplitMarkerF : Nat → List Char → List Char → List (List Char)
  | 0, l, acc => [acc.reverse ++ l]
  | _ + 1, [], acc => [acc.reverse]
  | f + 1, c :: rest, acc =>
      if currentTaskMarker.isPrefixOf (c :: rest) then
        acc.reverse ::
          pySplitMarkerF f ((c :: rest).drop currentTaskMarker.length) []
      else pySplitMarkerF f rest (c :: acc)

/-- Python `str.split("=== CURRENT TASK ===")` of a character list. -/
def pySplitMarker (l : List Char) (acc : List Char) : List (List Char) :=
  pySplitMarkerF (l.length + 1) l acc

/-- Python `task_content.split("=== CURRENT TASK ===")[-1].strip()` applied
when the marker occurs (chat_service.py 637-638, 713-714, 966-967). -/
def stripCurrentTask (s : String) : String :=
  if strContains s "=== CURRENT TASK ===" then
    String.mk (pyStrip ((pySplitMarker s.data []).getLastD []))
  else s

/-- The `context_too_long` stream event (chat_service.py 334-338 and
662-666). -/
def contextTooLongEv (total : Nat) : Ev :=
  ⟨"context_too_long",
    .obj [("message",
            .str "The conversation history is too long. Please create a new project to continue."),
          ("current_length", .num total),
          ("max_length", .num 100000)]⟩

/-- The generic error stream event (`yield sse_json("error", ...)`). -/
def errorEv (message : String) : Ev :=
  ⟨"error", .obj [("message", .str message)]⟩

/-- Fallback answer when the confirmation agent returns no message
(chat_service.py 358, 758). -/
def noAnswerFallback : String :=
  "I understand your question, but I\x27m having trouble generating a response right now."

/-- Answer used when generating the simple answer raises
(chat_service.py 365, 766). -/
def answerErrorFallback : String :=
  "I encountered an error while processing your question."

/-- The Improve / bootstrap branch of `step_solve` (chat_service.py
312-548).  `question` is `options.question` on the bootstrap iteration and
the action payload afterwards.  The speculative-folder cleanup in the
simple path (chat_service.py 367-386) touches only the file system and is
omitted. -/
def improveBranch (opts : Opts) (st : DState) (question : String)
    (newTaskId : Option String) (confirm : AgentResp) (simple : StepResp) :
    HR :=
  let st := { st with startEventLoop := false }
  let checked := check_conversation_history_length st.history
  if checked.1 then
    { events := [contextTooLongEv checked.2], st := st, trace := [], term := false }
  else
    let is_complex := if opts.hasAttaches then true else question_confirm confirm
    if ¬ is_complex then
      match simple with
      | .ok msgs =>
          let answer := msgs.headD noAnswerFallback
          { events := [⟨"wait_confirm",
                        .obj [("content", .str answer), ("question", .str question)]⟩],
            st := { st with history :=
                      st.history ++ [⟨.assistant, .text answer⟩] },
            trace := [], term := false }
      | .raises =>
          { events := [⟨"wait_confirm",
                        .obj [("content", .str answerErrorFallback),
                              ("question", .str question)]⟩],
            st := st, trace := [], term := false }
    else
      let idEffects : List Eff × Bool :=
        match newTaskId with
        | some tid => if tid ≠ "" then ([.setCurrentTask tid], true) else ([], false)
        | none => ([], false)
      let st := if idEffects.2 then { st with summaryGenerated := false } else st
      let wfEffects : List Eff :=
        if st.workforce.isNone then List.replicate opts.newAgents .engAddWorker else []
      let st := if st.workforce.isNone then
          { st with workforce := some ⟨false, false⟩, mcpDefined := true }
        else st
      let st := { st with status := .confirmed }
      let newCamel := TaskT.mk opts.taskId (question ++ opts.summaryPrompt) "" "" []
      let st := { st with camelTask := some newCamel }
      { events := [⟨"confirmed", .obj [("question", .str question)]⟩],
        st := st,
        trace := idEffects.1 ++ wfEffects ++
          [.spawn .decomposition, .register .decomposition],
        term := false }

/-- The NewTaskState branch (chat_service.py 693-881).  The decomposition
and summary oracles ride on the action; the wall-clock fallback task id
`f"\x7bint(time.time() * 1000)\x7d-multi"` is abstracted to the constant
`"time-multi"`.  The enqueue of the final decompose-progress payload onto
the task queue (chat_service.py 865) surfaces as a later queue item and is
not part of this step's result. -/
def newTaskStateBranch (opts : Opts) (st : DState) (data : PV)
    (oldResult : String) (confirm : AgentResp) (simple : StepResp)
    (decompValid : Bool) (decomp : DecomposeOut) (summary : SummaryResp) :
    HR :=
  match st.camelTask with
  | none =>
      { events := [errorEv "Cannot process new task state: current task not initialized."],
        st := st, trace := [], term := false }
  | some camel =>
      let cleanContent := stripCurrentTask camel.content
      let st := { st with history := st.history ++
        [⟨.task_result, .record cleanContent oldResult opts.workingDir⟩] }
      let newContent := pvGetStr data "content" ""
      let tid := pvGetStr data "task_id" "time-multi"
      let st := if newContent ≠ "" then
          { st with camelTask := some (TaskT.mk tid newContent "" "" []) }
        else st
      let headEvents : List Ev :=
        [⟨"end", .str oldResult⟩,
         ⟨"new_task_state", data⟩,
         ⟨"remove_task", .obj [("task_id", pvGetField data "task_id")]⟩]
      if st.workforce.isSome && newContent != "" then
        let pausedWf := st.workforce.map (fun w => { w with paused := true })
        let st := { st with status := .confirming, workforce := pausedWf }
        let is_complex := question_confirm confirm
        if ¬ is_complex then
          let pair : Ev × DState :=
            match simple with
            | .ok msgs =>
                let answer := msgs.headD noAnswerFallback
                (⟨"wait_confirm",
                   .obj [("content", .str answer), ("question", .str newContent)]⟩,
                 { st with history := st.history ++ [⟨.assistant, .text answer⟩] })
            | .raises =>
                (⟨"wait_confirm",
                   .obj [("content", .str answerErrorFallback),
                         ("question", .str newContent)]⟩, st)
          let resumedWf := pair.2.workforce.map (fun w => { w with paused := false })
          { events := headEvents ++ [pair.1],
            st := { pair.2 with workforce := resumedWf },
            trace := [.engPause, .engResume], term := false }
        else
          let camel' := (st.camelTask.getD camel)
          let decomposed := handle_decompose_append_task camel' decompValid decomp
          let accum := streamedBatches camel' decompValid decomp
          let new_sub_tasks := if accum.isEmpty then decomposed.2 else accum
          let new_summary :=
            match summary with
            | .ok s => s
            | _ =>
                if newContent.length > 100 then
                  "Follow-up Task|" ++ (newContent.take 97) ++ "..."
                else "Follow-up Task|" ++ newContent
          { events := headEvents ++ [⟨"confirmed", .obj [("question", .str newContent)]⟩],
            st := { st with status := .confirmed,
                            camelTask := some decomposed.1,
                            subTasksCache := new_sub_tasks,
                            summaryTaskContent := new_summary },
            trace := [.engPause, .setCurrentTask tid], term := false }
      else
        { events := headEvents, st := st, trace := [], term := false }

/-- The `elif` chain of `step_solve` over the dequeued action, for an
iteration that is past the bootstrap flag (chat_service.py 311-1053). -/
def dispatchAct (opts : Opts) (st : DState) (a : Act) : HR :=
  match a with
    | .improve q newTaskId confirm simple =>
        improveBranch opts st q newTaskId confirm simple
    | .updateTask tasks =>
        match st.camelTask with
        | none =>
            -- `assert camel_task is not None` fails; the generic handler
            -- yields an error event with `str(AssertionError())`, the empty
            -- string (chat_service.py 551, 1050-1052).
            { events := [errorEv ""], st := st, trace := [], term := false }
        | some camel =>
            let update_tasks := dictOf tasks
            let base := if st.subTasksCache.isEmpty then st.decomposeSubTasks
                        else st.subTasksCache
            let updated := update_sub_tasks base update_tasks
            let camel' := add_sub_tasks camel tasks
            { events := [⟨"to_sub_tasks",
                          .obj [("summary_task", .str st.summaryTaskContent),
                                ("sub_tasks", .taskTree (tree_sub_tasks 0 camel'.subtasks))]⟩],
              st := { st with subTasksCache := updated, camelTask := some camel' },
              trace := [], term := false }
    | .addTask _ taskId projectId =>
        if st.camelTask.isNone ∧ st.workforce.isNone then
          { events := [errorEv "Cannot add task: task not initialized. Please start a task first."],
            st := st, trace := [], term := false }
        else if st.camelTask.isNone then
          -- `assert camel_task is not None` raises; generic error event.
          { events := [errorEv ""], st := st, trace := [], term := false }
        else if st.workforce.isNone then
          { events := [errorEv "Workforce not initialized. Please start the task first."],
            st := st, trace := [], term := false }
        else
          let subCount := (st.camelTask.getD (TaskT.mk "" "" "" "" [])).subtasks.length
          { events := [⟨"add_task",
                        .obj [("project_id", .str projectId),
                              ("task_id",
                               match taskId with
                               | some t => if t ≠ "" then .str t else .num (subCount + 1)
                               | none => .num (subCount + 1))]⟩],
            st := st, trace := [.engAddTask], term := false }
    | .removeTask taskId projectId =>
        if st.workforce.isNone then
          { events := [errorEv "Workforce not initialized. Please start the task first."],
            st := st, trace := [], term := false }
        else
          { events := [⟨"remove_task",
                        .obj [("project_id", .str projectId),
                              ("task_id", .str taskId)]⟩],
            st := st, trace := [.engRemoveTask], term := false }
    | .skipTask projectId =>
        if st.status = .done then
          { events := [], st := st, trace := [], term := false }
        else
          let stopTrace : List Eff :=
            match st.workforce with
            | some wf =>
                if projectId = opts.projectId then
                  (if wf.running then [.engStop] else []) ++ [.engStopGraceful]
                else []
            | none => []
          let st := match st.workforce with
            | some _ =>
                if projectId = opts.projectId then { st with workforce := none } else st
            | none => st
          let endMessage := "<summary>Task stopped</summary>Task stopped by user"
          let taskContent :=
            match st.camelTask with
            | some camel => stripCurrentTask camel.content
            | none => "Task " ++ opts.taskId
          { events := [⟨"end", .str endMessage⟩],
            st := { st with status := .done,
                            lastTaskResult := endMessage,
                            history := st.history ++
                              [⟨.task_result,
                                .record taskContent endMessage opts.workingDir⟩],
                            camelTask := none },
            trace := stopTrace, term := false }
    | .start =>
        let checked := check_conversation_history_length st.history
        if checked.1 then
          { events := [contextTooLongEv checked.2], st := st, trace := [], term := false }
        else
          match st.workforce with
          | none => { events := [], st := st, trace := [], term := false }
          | some wf =>
              if wf.paused then
                { events := [],
                  st := { st with workforce := some { wf with paused := false } },
                  trace := [.engResume], term := false }
              else
                { events := [],
                  st := { st with status := .processing,
                                  subTasksCache :=
                                    if st.subTasksCache.isEmpty then st.decomposeSubTasks
                                    else st.subTasksCache },
                  trace := [.spawn .engineExec, .register .engineExec], term := false }
    | .taskState data =>
        let state := pvGetStr data "state" "unknown"
        let result := pvGetStr data "result" ""
        { events := [⟨"task_state", data⟩],
          st := if state = "DONE" ∧ result ≠ "" then { st with lastCompleted := result }
                else st,
          trace := [], term := false }
    | .newTaskState data oldResult confirm simple decompValid decomp summary =>
        newTaskStateBranch opts st data oldResult confirm simple decompValid
          decomp summary
    | .passthrough k data =>
        { events := [⟨passName k, data⟩], st := st, trace := [], term := false }
    | .writeFile data processTaskId =>
        { events := [⟨"write_file",
                      .obj [("file_path", .str data),
                            ("process_task_id", .str processTaskId)]⟩],
          st := st, trace := [], term := false }
    | .notice data processTaskId =>
        { events := [⟨"notice",
                      .obj [("notice", .str data),
                            ("process_task_id", .str processTaskId)]⟩],
          st := st, trace := [], term := false }
    | .terminal data processTaskId =>
        { events := [⟨"terminal",
                      .obj [("output", .str data),
                            ("process_task_id", .str processTaskId)]⟩],
          st := st, trace := [], term := false }
    | .installMcp =>
        if st.mcpDefined then
          { events := [], st := st,
            trace := [.spawn .mcpInstall, .register .mcpInstall], term := false }
        else
          -- `mcp` is only bound by `construct_workforce`; before that the
          -- branch raises `NameError`, surfaced as a generic error event.
          { events := [errorEv "name \x27mcp\x27 is not defined"],
            st := st, trace := [], term := false }
    | .pauseAct =>
        match st.workforce with
        | some wf =>
            { events := [],
              st := { st with workforce := some { wf with paused := true } },
              trace := [.engPause], term := false }
        | none => { events := [], st := st, trace := [], term := false }
    | .resumeAct =>
        match st.workforce with
        | some wf =>
            { events := [],
              st := { st with workforce := some { wf with paused := false } },
              trace := [.engResume], term := false }
        | none => { events := [], st := st, trace := [], term := false }
    | .decomposeText projectId taskId content =>
        { events := [⟨"decompose_text",
                      .obj [("project_id", .str projectId),
                            ("task_id", .str taskId),
                            ("content", .str content)]⟩],
          st := st, trace := [], term := false }
    | .decomposeProgress data =>
        { events := [⟨"to_sub_tasks", data⟩], st := st, trace := [], term := false }
    | .newAgent =>
        match st.workforce with
        | some wf =>
            { events := [],
              st := { st with workforce := some { wf with paused := false } },
              trace := [.engPause, .engAddWorker, .engResume], term := false }
        | none => { events := [], st := st, trace := [], term := false }
    | .endAction data resultOracle =>
        if st.status = .done then
          { events := [], st := st, trace := [], term := false }
        else
          let finalResult :=
            match st.camelTask with
            | none =>
                match data with
                | some d => if d ≠ "" then d else "Task completed"
                | none => "Task completed"
            | some _ => resultOracle
          let taskContent :=
            match st.camelTask with
            | some camel => stripCurrentTask camel.content
            | none => "Task " ++ opts.taskId
          { events := [⟨"end", .str finalResult⟩],
            st := { st with status := .done,
                            lastTaskResult := finalResult,
                            history := st.history ++
                              [⟨.task_result,
                                .record taskContent finalResult opts.workingDir⟩],
                            workforce := none,
                            camelTask := none },
            trace := (if st.workforce.isSome then [.engStopGraceful] else []) ++
              [.agentReset],
            term := false }
    | .supplement q =>
        match st.camelTask with
        | none =>
            { events := [errorEv "Cannot supplement task: task not initialized. Please start a task first."],
              st := st, trace := [], term := false }
        | some camel =>
            let camel' := camel.withSubtasks (camel.subtasks ++
              [TaskT.mk (camel.id ++ "." ++ toString camel.subtasks.length) q "" "" []])
            { events := [],
              st := { st with status := .processing, camelTask := some camel' },
              trace := if st.workforce.isSome then
                  [.spawn .supplementExec, .register .supplementExec]
                else [],
              term := false }
    | .budgetNotEnough =>
        { events := [⟨"budget_not_enough",
                      .obj [("message", .str "budget not enouth")]⟩],
          st := { st with workforce :=
                    st.workforce.map (fun w => { w with paused := true }) },
          trace := if st.workforce.isSome then [.engPause] else [],
          term := false }
    | .stopAction =>
        let stopTrace : List Eff :=
          match st.workforce with
          | some wf => (if wf.running then [.engStop] else []) ++ [.engStopGraceful]
          | none => []
        { events := [], st := st, trace := stopTrace ++ [.deleteTaskLock],
          term := true }

/-- One iteration of the `step_solve` dispatch: the bootstrap condition
`if item.action == Action.improve or start_event_loop` sends the first
dequeued item — whatever its kind — into the Improve branch with
`options.question`; afterwards the action's own branch runs
(chat_service.py 311-330). -/
def step_solve_action (opts : Opts) (st : DState) (a : Act) : HR :=
  if st.startEventLoop then
    match a with
    | .improve _ newTaskId confirm simple =>
        improveBranch opts st opts.question newTaskId confirm simple
    | _ => improveBranch opts st opts.question none opts.bootConfirm opts.bootSimple
  else
    dispatchAct opts st a

/-- Modelled from the spec (the `TaskLock` queue lives in the absent
`backend/app/service/task.py`; its FIFO discipline is the spec's "Queue is
strictly FIFO", single logical consumer): the dispatcher loop dequeues the
head of the queue, dispatches it, emits that step's events, and continues
with the rest unless the step terminated the loop.  Items re-enqueued by
background work (`decompose_text`, `decompose_progress`, engine
notifications) appear as ordinary members of the quantified queue.  The
per-iteration disconnect poll (chat_service.py 284-303) is not modelled
(the client is assumed connected), and the queue-retrieval retry
(chat_service.py 304-309) collapses to always succeeding. -/
def step_solve_loop (opts : Opts) (st : DState) : List Act → List Ev
  | [] => []
  | a :: rest =>
      let r := step_solve_action opts st a
      r.events ++ (if r.term then [] else step_solve_loop opts r.st rest)

/-- The per-action event blocks of a queue, in queue order, each computed in
the state left by the previous actions; processing cuts off after a
terminating action. -/
def step_solve_blocks (opts : Opts) (st : DState) : List Act → List (List Ev)
  | [] => []
  | a :: rest =>
      let r := step_solve_action opts st a
      r.events :: (if r.term then [] else step_solve_blocks opts r.st rest)

/-! ## Shared helper lemmas -/

theorem updateLevel_eq_filterMap (m : EditMap)
    (childF : List TaskT → List TaskT) :
    ∀ l : List TaskT, updateLevel m childF l =
      l.filterMap fun t => (List.lookup t.id m).map fun c =>
        TaskT.mk t.id c t.state t.result (childF t.subtasks) := by
  intro l
  induction l with
  | nil => rfl
  | cons t rest ih =>
      rw [updateLevel, List.filterMap_cons]
      cases h : List.lookup t.id m <;> simp [h, ih]

theorem updateSubTasksAux_eq_spec (m : EditMap) :
    ∀ fuel l, updateSubTasksAux m fuel l = updateSubTasksSpec m fuel l := by
  intro fuel
  induction fuel with
  | zero =>
      intro l
      rw [show updateSubTasksAux m 0 = updateLevel m (fun subs => subs)
            from rfl,
        updateLevel_eq_filterMap, updateSubTasksSpec]
  | succ f ihf =>
      intro l
      rw [show updateSubTasksAux m (f + 1) =
            updateLevel m (updateSubTasksAux m f) from rfl,
        updateLevel_eq_filterMap, updateSubTasksSpec]
      simp only [ihf]

theorem updateSubTasksSpec_map_id (m : EditMap) (f : Nat) :
    ∀ l : List TaskT, (updateSubTasksSpec m f l).map TaskT.id =
      (l.filter (fun t => (List.lookup t.id m).isSome)).map TaskT.id := by
  cases f with
  | zero =>
      intro l
      induction l with
      | nil => simp [updateSubTasksSpec]
      | cons t rest ih =>
          rw [updateSubTasksSpec] at ih ⊢
          rw [List.filterMap_cons]
          cases h : List.lookup t.id m with
          | none => simpa [h, List.filter_cons] using ih
          | some c => simpa [h, List.filter_cons] using ih
  | succ f' =>
      intro l
      induction l with
      | nil => simp [updateSubTasksSpec]
      | cons t rest ih =>
          rw [updateSubTasksSpec] at ih ⊢
          rw [List.filterMap_cons]
          cases h : List.lookup t.id m with
          | none => simpa [h, List.filter_cons] using ih
          | some c => simpa [h, List.filter_cons] using ih

theorem updateSubTasksSpec_content (m : EditMap) (f : Nat) (l : List TaskT)
    (t : TaskT) (ht : t ∈ updateSubTasksSpec m f l) :
    List.lookup t.id m = some t.content := by
  cases f with
  | zero =>
      rw [updateSubTasksSpec] at ht
      obtain ⟨a, _, heq⟩ := List.mem_filterMap.mp ht
      obtain ⟨c, hc, rfl⟩ := Option.map_eq_some'.mp heq
      simpa using hc
  | succ f' =>
      rw [updateSubTasksSpec] at ht
      obtain ⟨a, _, heq⟩ := List.mem_filterMap.mp ht
      obtain ⟨c, hc, rfl⟩ := Option.map_eq_some'.mp heq
      simpa using hc

/-! ## C9 -/

/-- C9: `update_sub_tasks` keeps, in their original relative order, exactly
the subtasks whose id is a key of the edit map, replaces each retained
subtask's content with the map's content for its id, recurses into retained
subtasks' children, leaves the children of tasks sitting at the depth-5
level untouched, and returns `[]` when invoked beyond the depth bound. -/
theorem C9_update_sub_tasks :
    (∀ (l : List TaskT) (m : EditMap) (d : Nat), d > 5 →
       update_sub_tasks l m d = []) ∧
    (∀ (l : List TaskT) (m : EditMap) (d : Nat), d ≤ 5 →
       update_sub_tasks l m d = updateSubTasksSpec m (5 - d) l) ∧
    (∀ (m : EditMap) (f : Nat) (l : List TaskT),
       (updateSubTasksSpec m f l).map TaskT.id =
         (l.filter (fun t => (List.lookup t.id m).isSome)).map TaskT.id) ∧
    (∀ (m : EditMap) (f : Nat) (l : List TaskT) (t : TaskT),
       t ∈ updateSubTasksSpec m f l → List.lookup t.id m = some t.content) ∧
    (∀ (m : EditMap) (l : List TaskT),
       updateSubTasksSpec m 0 l =
         l.filterMap fun t =>
           (List.lookup t.id m).map fun c =>
             TaskT.mk t.id c t.state t.result t.subtasks) := by
  refine ⟨?_, ?_, ?_, ?_, ?_⟩
  · intro l m d hd
    simp [update_sub_tasks, hd]
  · intro l m d hd
    rw [update_sub_tasks, if_neg (by omega), updateSubTasksAux_eq_spec]
  · intro m f l
    exact updateSubTasksSpec_map_id m f l
  · intro m f l t ht
    exact updateSubTasksSpec_content m f l t ht
  · intro m l
    rw [updateSubTasksSpec]

/-- Witness: the depth guard and the level-0 characterisation at concrete
inputs. -/
theorem C9_update_sub_tasks_witness :
    update_sub_tasks [TaskT.mk "a" "x" "" "" []] [("a", "y")] 6 = [] ∧
    update_sub_tasks [TaskT.mk "a" "x" "" "" [], TaskT.mk "b" "z" "" "" []]
        [("a", "y")] 0 =
      updateSubTasksSpec [("a", "y")] 5
        [TaskT.mk "a" "x" "" "" [], TaskT.mk "b" "z" "" "" []] :=
  ⟨C9_update_sub_tasks.1 _ _ 6 (by decide),
   C9_update_sub_tasks.2.1 _ _ 0 (by decide)⟩

/-! ## C10 -/

/-- C10: `question_confirm` classifies a request as complex (returns
`true`) exactly when the stripped, lowercased agent response contains the
substring `"yes"`; an agent exception, an absent message list, and empty
content all default to complex, and the embedded function is total, so the
classification never raises. -/
theorem C10_question_confirm :
    question_confirm .raises = true ∧
    question_confirm .noMsgs = true ∧
    question_confirm (.msg "") = true ∧
    ∀ c : String, c ≠ "" →
      (question_confirm (.msg c) = true ↔
        "yes".data <:+: pyLower (pyStrip c.data)) := by
  refine ⟨rfl, rfl, rfl, ?_⟩
  intro c hc
  simp [question_confirm, hc]

/-- Witness: a concrete affirmative response is classified as complex. -/
theorem C10_question_confirm_witness :
    question_confirm (.msg "Yes, definitely") = true :=
  (C10_question_confirm.2.2.2 "Yes, definitely" (by decide)).2 (by decide)

/-! ## C7 -/

/-- C7: when the decomposition of a valid task yields zero subtasks,
`handle_decompose_append_task` synthesizes exactly one fallback subtask
carrying the original task's content under the id `task.id ++ ".1"`, and
the returned subtask list is non-empty on every path. -/
theorem C7_decompose_fallback :
    (∀ (task : TaskT) (out : DecomposeOut), collectedSubtasks out = [] →
       handle_decompose_append_task task true out =
         ((task.withState "FAILED").withSubtasks
            [TaskT.mk (task.id ++ ".1") task.content "" "" []],
          [TaskT.mk (task.id ++ ".1") task.content "" "" []])) ∧
    (∀ (task : TaskT) (valid : Bool) (out : DecomposeOut),
       0 < (handle_decompose_append_task task valid out).2.length) := by
  constructor
  · intro task out hout
    simp [handle_decompose_append_task, hout, TaskT.withState, TaskT.withSubtasks]
  · intro task valid out
    cases valid with
    | false => simp [handle_decompose_append_task]
    | true =>
        rw [handle_decompose_append_task]
        simp only [Bool.not_true, if_neg]
        cases h : collectedSubtasks out with
        | nil => simp [h]
        | cons a l => simp [h]

/-- Witness: an empty direct decomposition produces the fallback subtask. -/
theorem C7_decompose_fallback_witness :
    handle_decompose_append_task (TaskT.mk "7" "do it" "OPEN" "" []) true
        (.direct []) =
      (TaskT.mk "7" "do it" "FAILED" "" [TaskT.mk "7.1" "do it" "" "" []],
       [TaskT.mk "7.1" "do it" "" "" []]) := by
  have h := C7_decompose_fallback.1 (TaskT.mk "7" "do it" "OPEN" "" [])
    (.direct []) rfl
  simpa [TaskT.withState, TaskT.withSubtasks, TaskT.id, TaskT.content,
    TaskT.state, TaskT.result, TaskT.subtasks] using h

/-! ## C8 -/

/-- Every output of the stream wrapper is forwarded data (never an error
event). -/
def wrapAllData : List WrapOut → Bool
  | [] => true
  | .data _ :: rest => wrapAllData rest
  | .errorEvent _ :: _ => false

/-- C8: `timeout_stream_wrapper` restarts its idle allowance after every
forwarded event (each item's delay is measured against the full bound);
when an item misses the idle bound the wrapped sequence ends with a silent
idle-timeout outcome — the output contains forwarded data only, never an
error event; and an upstream cancellation that arrives in time is re-raised
as the `cancelled` outcome rather than suppressed. -/
theorem C8_timeout_stream_wrapper :
    (∀ (t : Nat) (rest : List StreamItem) (d : Nat) (p : String),
       timeout_stream_wrapper t (.ev d p :: rest) =
         if d ≤ t then
           (.data p :: (timeout_stream_wrapper t rest).1,
            (timeout_stream_wrapper t rest).2)
         else ([], .idleTimeout)) ∧
    (∀ (t : Nat) (items : List StreamItem),
       wrapAllData (timeout_stream_wrapper t items).1 = true) ∧
    (∀ (t : Nat) (rest : List StreamItem) (d : Nat),
       timeout_stream_wrapper t (.cancel d :: rest) =
         if d ≤ t then ([], .cancelled) else ([], .idleTimeout)) := by
  refine ⟨?_, ?_, ?_⟩
  · intro t rest d p
    rw [timeout_stream_wrapper]
  · intro t items
    induction items with
    | nil => simp [timeout_stream_wrapper, wrapAllData]
    | cons i rest ih =>
        cases i with
        | ev d p =>
            rw [timeout_stream_wrapper]
            by_cases h : d ≤ t <;> simp [h, wrapAllData, ih]
        | cancel d =>
            rw [timeout_stream_wrapper]
            by_cases h : d ≤ t <;> simp [h, wrapAllData]
  · intro t rest d
    rw [timeout_stream_wrapper]

/-! ## C6 -/

mutual

theorem walkTree_kept : ∀ (t : FSTree), ∀ p ∈ walkTree t,
    fileKept p.2 = true ∧ ∀ d ∈ p.1, dirKept d = true
  | .node files dirs => by
      intro p hp
      rw [walkTree] at hp
      rcases List.mem_append.mp hp with h | h
      · obtain ⟨f, hf, rfl⟩ := List.mem_map.mp h
        exact ⟨(List.mem_filter.mp hf).2, by simp⟩
      · exact walkDirs_kept dirs p h

theorem walkDirs_kept : ∀ (l : List (String × FSTree)), ∀ p ∈ walkDirs l,
    fileKept p.2 = true ∧ ∀ d ∈ p.1, dirKept d = true
  | [] => by intro p hp; rw [walkDirs] at hp; simp at hp
  | (d, t) :: rest => by
      intro p hp
      rw [walkDirs] at hp
      rcases List.mem_append.mp hp with h | h
      · by_cases hd : dirKept d = true
        · rw [if_pos hd] at h
          obtain ⟨q, hq, rfl⟩ := List.mem_map.mp h
          obtain ⟨h1, h2⟩ := walkTree_kept t q hq
          refine ⟨h1, ?_⟩
          intro x hx
          rcases List.mem_cons.mp hx with rfl | hx
          · exact hd
          · exact h2 x hx
        · rw [if_neg hd] at h
          simp at h
      · exact walkDirs_kept rest p h

end

theorem mem_collectFiles {fs : FileSystem} {wd p : String}
    (h : p ∈ collectFiles fs wd) :
    ∃ comps f, p = joinPath wd comps f ∧ fileKept f = true ∧
      ∀ d ∈ comps, dirKept d = true := by
  rw [collectFiles] at h
  cases hl : List.lookup wd fs with
  | none => rw [hl] at h; simp at h
  | some t =>
      rw [hl] at h
      obtain ⟨q, hq, rfl⟩ := List.mem_map.mp h
      obtain ⟨h1, h2⟩ := walkTree_kept t q hq
      exact ⟨q.1, q.2, rfl, h1, h2⟩

theorem mem_context_files (fs : FileSystem) (history : List Entry)
    (p : String) :
    p ∈ build_conversation_context_files fs history ↔
      ∃ wd, wd ∈ historyWorkingDirs history ∧ p ∈ collectFiles fs wd := by
  rw [build_conversation_context_files,
    (List.perm_insertionSort _ _).mem_iff, List.mem_dedup, List.mem_flatMap]

/-- C6: the file manifest rendered by `build_conversation_context` lists
each generated file's absolute path at most once (no duplicates), in sorted
order; its contents are exactly the files collected below the working
directories referenced by structured `task_result` entries; histories
referencing the same set of working directories — duplicates across turns
included — produce the identical manifest; and every listed path is a
join of a referenced working directory with non-hidden, non-pruned
components and a kept file name (hidden files, caches and dependency
directories excluded). -/
theorem C6_context_file_manifest (fs : FileSystem) (history : List Entry) :
    (build_conversation_context_files fs history).Nodup ∧
    (build_conversation_context_files fs history).Sorted (· ≤ ·) ∧
    (∀ p, p ∈ build_conversation_context_files fs history ↔
       ∃ wd, wd ∈ historyWorkingDirs history ∧ p ∈ collectFiles fs wd) ∧
    (∀ history₂ : List Entry,
       (∀ wd, wd ∈ historyWorkingDirs history ↔
          wd ∈ historyWorkingDirs history₂) →
       build_conversation_context_files fs history =
         build_conversation_context_files fs history₂) ∧
    (∀ p, p ∈ build_conversation_context_files fs history →
       ∃ wd comps f, wd ∈ historyWorkingDirs history ∧
         p = joinPath wd comps f ∧ fileKept f = true ∧
         ∀ d ∈ comps, dirKept d = true) := by
  have hnodup : ∀ h : List Entry,
      (build_conversation_context_files fs h).Nodup := by
    intro h
    rw [build_conversation_context_files]
    exact ((List.perm_insertionSort _ _).nodup_iff).mpr (List.nodup_dedup _)
  have hsorted : ∀ h : List Entry,
      (build_conversation_context_files fs h).Sorted (· ≤ ·) := by
    intro h
    rw [build_conversation_context_files]
    exact List.sorted_insertionSort _ _
  refine ⟨hnodup history, hsorted history, mem_context_files fs history, ?_, ?_⟩
  · intro history₂ hiff
    refine List.eq_of_perm_of_sorted ?_ (hsorted history) (hsorted history₂)
    refine (List.perm_ext_iff_of_nodup (hnodup history) (hnodup history₂)).mpr ?_
    intro p
    rw [mem_context_files, mem_context_files]
    constructor
    · rintro ⟨wd, hwd, hp⟩; exact ⟨wd, (hiff wd).mp hwd, hp⟩
    · rintro ⟨wd, hwd, hp⟩; exact ⟨wd, (hiff wd).mpr hwd, hp⟩
  · intro p hp
    obtain ⟨wd, hwd, hcol⟩ := (mem_context_files fs history p).mp hp
    obtain ⟨comps, f, heq, hf, hd⟩ := mem_collectFiles hcol
    exact ⟨wd, comps, f, hwd, heq, hf, hd⟩

/-- A small concrete file system: one working directory with hidden,
cache and dependency entries to be excluded, and a second directory. -/
def c6fs : FileSystem :=
  [("/w1", .node ["b.txt", "a.txt", ".hidden", "x.pyc"]
      [("node_modules", .node ["m.js"] []),
       ("src", .node ["c.txt"] [])]),
   ("/w2", .node ["b.txt"] [])]

/-- A history referencing `/w1` twice and `/w2` once. -/
def c6hist1 : List Entry :=
  [⟨.task_result, .record "t1" "r1" "/w1"⟩,
   ⟨.task_result, .record "t2" "r2" "/w1"⟩,
   ⟨.assistant, .text "chat"⟩,
   ⟨.task_result, .record "t3" "r3" "/w2"⟩]

/-- A history referencing each working directory once. -/
def c6hist2 : List Entry :=
  [⟨.task_result, .record "t" "r" "/w1"⟩,
   ⟨.task_result, .record "t" "r" "/w2"⟩]

/-- Witness: duplicate working directories collapse — the two histories
produce the identical manifest — and a listed path decomposes as required. -/
theorem C6_context_file_manifest_witness :
    build_conversation_context_files c6fs c6hist1 =
      build_conversation_context_files c6fs c6hist2 ∧
    (∃ wd comps f, wd ∈ historyWorkingDirs c6hist1 ∧
       "/w1/src/c.txt" = joinPath wd comps f ∧ fileKept f = true ∧
       ∀ d ∈ comps, dirKept d = true) :=
  ⟨(C6_context_file_manifest c6fs c6hist1).2.2.2.1 c6hist2
     (fun _ => Iff.rfl),
   (C6_context_file_manifest c6fs c6hist1).2.2.2.2 "/w1/src/c.txt"
     ((mem_context_files c6fs c6hist1 "/w1/src/c.txt").mpr
       ⟨"/w1", by decide, by decide⟩)⟩

/-! ## Concrete sample configuration shared by witnesses and
counterexamples -/

/-- A concrete per-task configuration. -/
def sampleOpts : Opts :=
  { question := "q0", taskId := "t1", projectId := "p1",
    hasAttaches := false, summaryPrompt := "", newAgents := 0,
    workingDir := "/wd", bootConfirm := .noMsgs, bootSimple := .ok ["hello"] }

/-- A concrete dispatcher state: past the bootstrap iteration, empty
history, no engine. -/
def baseState : DState :=
  { startEventLoop := false, status := .confirming, history := [],
    lastTaskResult := "", summaryGenerated := false, workforce := none,
    mcpDefined := false, camelTask := none, subTasksCache := [],
    decomposeSubTasks := [], summaryTaskContent := "", lastCompleted := "" }

/-! ## C3 -/

/-- A string of 100001 characters. -/
def longString : String := String.mk (List.replicate 100001 'a')

theorem longString_length : longString.length = 100001 :=
  List.length_replicate 100001 'a'

/-- A history whose single structured `task_result` entry embeds a task
result of 100001 characters: its cumulative character length exceeds the
bound while the code's measure counts the entry as 3. -/
def c3History : List Entry :=
  [⟨.task_result, .record "" longString ""⟩]

theorem historyCharLen_single_record (a b c : String) :
    historyCharLenSpec [⟨.task_result, .record a b c⟩] =
      a.length + b.length + c.length := by
  simp [historyCharLenSpec, entryCharLenSpec]

theorem check_single_text (s : String) :
    (check_conversation_history_length [⟨.assistant, .text s⟩]).1 =
      decide (s.length > 100000) := by
  simp [check_conversation_history_length, entryLen]

/-- The improve action and configuration driving the history above into the
complex (engine) path: attachments force complexity. -/
def c3Opts : Opts := { sampleOpts with hasAttaches := true }

/-- Dispatcher state holding `c3History`. -/
def c3State : DState := { baseState with history := c3History }

/-- An Improve action for the `c3` scenario. -/
def c3Act : Act := .improve "follow-up" none .noMsgs (.ok [])

/-- Counterexample to C3 as stated: this conversation history's cumulative
character length exceeds 100000, yet the Improve turn emits `confirmed`
(no `context_too_long`) and spawns the decomposition, because
`check_conversation_history_length` measures a structured entry by
`len(dict)` = 3 rather than by the characters of its contents. -/
theorem C3_counterexample :
    historyCharLenSpec c3History > 100000 ∧
    (step_solve_action c3Opts c3State c3Act).events.map Ev.name =
      ["confirmed"] ∧
    (step_solve_action c3Opts c3State c3Act).trace =
      [Eff.spawn .decomposition, Eff.register .decomposition] := by
  refine ⟨?_, rfl, rfl⟩
  have h : historyCharLenSpec c3History =
      ("" : String).length + longString.length + ("" : String).length := by
    rw [show c3History = [⟨.task_result, .record "" longString ""⟩] from rfl,
      historyCharLen_single_record]
  rw [h, longString_length, show ("" : String).length = 0 from rfl]
  omega

/-- C3 (amended): when the history length measured as the code measures it
— characters for text entries, the dict key count 3 for structured entries
— exceeds 100000, an Improve or Start turn emits exactly the
`context_too_long` event, changes no state beyond clearing the bootstrap
flag, performs no engine call and spawns nothing, so the engine is not
invoked for that turn. -/
theorem C3_amended :
    (∀ (opts : Opts) (st : DState) (q : String) (ntid : Option String)
       (confirm : AgentResp) (simple : StepResp),
       (check_conversation_history_length st.history).1 = true →
       step_solve_action opts st (.improve q ntid confirm simple) =
         ⟨[contextTooLongEv (check_conversation_history_length st.history).2],
          { st with startEventLoop := false }, [], false⟩) ∧
    (∀ (opts : Opts) (st : DState),
       st.startEventLoop = false →
       (check_conversation_history_length st.history).1 = true →
       step_solve_action opts st .start =
         ⟨[contextTooLongEv (check_conversation_history_length st.history).2],
          st, [], false⟩) := by
  constructor
  · intro opts st q ntid confirm simple h
    cases hb : st.startEventLoop <;>
      simp [step_solve_action, dispatchAct, hb, improveBranch, h]
  · intro opts st hb h
    simp [step_solve_action, dispatchAct, hb, h]

/-- A history of plain text entries whose code-measured length exceeds the
bound. -/
def c3TextHistory : List Entry := [⟨.assistant, .text longString⟩]

theorem c3TextHistory_exceeds :
    (check_conversation_history_length c3TextHistory).1 = true := by
  rw [show c3TextHistory = [⟨.assistant, .text longString⟩] from rfl,
    check_single_text, longString_length]
  decide

/-- Witness: the amended claim at a concrete over-long history. -/
theorem C3_amended_witness :
    step_solve_action sampleOpts { baseState with history := c3TextHistory }
        (.improve "more" none .noMsgs (.ok [])) =
      ⟨[contextTooLongEv
          (check_conversation_history_length c3TextHistory).2],
        { baseState with history := c3TextHistory }, [], false⟩ :=
  C3_amended.1 sampleOpts { baseState with history := c3TextHistory }
    "more" none .noMsgs (.ok []) c3TextHistory_exceeds

/-! ## C1 -/

/-- C1: the dispatcher loop processes the actions of a queue strictly in
enqueue order — re-enqueued decomposition chunks and progress items being
ordinary queue members — so the emitted stream-event sequence equals the
concatenation, in queue order, of the per-action event blocks, each block
computed in the state left by the previous actions. -/
theorem C1_queue_order (opts : Opts) (st : DState) (q : List Act) :
    step_solve_loop opts st q = (step_solve_blocks opts st q).flatten := by
  induction q generalizing st with
  | nil => rfl
  | cons a rest ih =>
      rw [step_solve_loop, step_solve_blocks, List.flatten_cons]
      by_cases h : (step_solve_action opts st a).term <;> simp [h, ih]

/-! ## C2 -/

theorem step_endAction_done (opts : Opts) (st : DState) (d : Option String)
    (r : String) (hst : st.status = .done) (hboot : st.startEventLoop = false) :
    step_solve_action opts st (.endAction d r) = ⟨[], st, [], false⟩ := by
  simp [step_solve_action, dispatchAct, hboot, hst]

theorem step_skip_done (opts : Opts) (st : DState) (p : String)
    (hst : st.status = .done) (hboot : st.startEventLoop = false) :
    step_solve_action opts st (.skipTask p) = ⟨[], st, [], false⟩ := by
  simp [step_solve_action, dispatchAct, hboot, hst]

theorem endAction_fields (opts : Opts) (st : DState) (d : Option String)
    (r : String) (hboot : st.startEventLoop = false)
    (hst : st.status ≠ .done) :
    (step_solve_action opts st (.endAction d r)).events.map Ev.name = ["end"] ∧
    (step_solve_action opts st (.endAction d r)).st.status = .done ∧
    (step_solve_action opts st (.endAction d r)).st.startEventLoop = false ∧
    (step_solve_action opts st (.endAction d r)).term = false := by
  refine ⟨?_, ?_, ?_, ?_⟩ <;> simp [step_solve_action, dispatchAct, hboot, hst]

theorem skip_fields (opts : Opts) (st : DState) (p : String)
    (hboot : st.startEventLoop = false) (hst : st.status ≠ .done) :
    (step_solve_action opts st (.skipTask p)).events.map Ev.name = ["end"] ∧
    (step_solve_action opts st (.skipTask p)).st.status = .done ∧
    (step_solve_action opts st (.skipTask p)).st.startEventLoop = false ∧
    (step_solve_action opts st (.skipTask p)).term = false := by
  cases hw : st.workforce with
  | none =>
      refine ⟨?_, ?_, ?_, ?_⟩ <;>
        simp [step_solve_action, dispatchAct, hboot, hst, hw]
  | some wf =>
      by_cases hp : p = opts.projectId <;>
        (refine ⟨?_, ?_, ?_, ?_⟩ <;>
          simp [step_solve_action, dispatchAct, hboot, hst, hw, hp])

/-- C2: starting from any post-bootstrap state not yet done, issuing End
twice produces exactly one `end` stream event; the first End sets the
status to done, and the second End changes no state, emits no event, makes
no engine call and does not terminate the loop.  The same holds for
SkipTask issued twice. -/
theorem C2_end_skip_idempotent (opts : Opts) (st : DState)
    (d1 d2 : Option String) (r1 r2 p1 p2 : String)
    (hboot : st.startEventLoop = false) (hst : st.status ≠ .done) :
    ((step_solve_loop opts st [.endAction d1 r1, .endAction d2 r2]).map
        Ev.name = ["end"]) ∧
    ((step_solve_action opts st (.endAction d1 r1)).st.status = .done) ∧
    (step_solve_action opts (step_solve_action opts st (.endAction d1 r1)).st
        (.endAction d2 r2) =
      ⟨[], (step_solve_action opts st (.endAction d1 r1)).st, [], false⟩) ∧
    ((step_solve_loop opts st [.skipTask p1, .skipTask p2]).map
        Ev.name = ["end"]) ∧
    ((step_solve_action opts st (.skipTask p1)).st.status = .done) ∧
    (step_solve_action opts (step_solve_action opts st (.skipTask p1)).st
        (.skipTask p2) =
      ⟨[], (step_solve_action opts st (.skipTask p1)).st, [], false⟩) := by
  obtain ⟨he, hes, heb, het⟩ := endAction_fields opts st d1 r1 hboot hst
  obtain ⟨hs, hss, hsb, hstm⟩ := skip_fields opts st p1 hboot hst
  have he2 := step_endAction_done opts
    (step_solve_action opts st (.endAction d1 r1)).st d2 r2 hes heb
  have hs2 := step_skip_done opts
    (step_solve_action opts st (.skipTask p1)).st p2 hss hsb
  refine ⟨?_, hes, he2, ?_, hss, hs2⟩
  · rw [step_solve_loop, step_solve_loop, step_solve_loop]
    rw [het, he2]
    simpa using he
  · rw [step_solve_loop, step_solve_loop, step_solve_loop]
    rw [hstm, hs2]
    simpa using hs

/-- Witness: End twice at a concrete state emits exactly one `end` event. -/
theorem C2_end_skip_idempotent_witness :
    (step_solve_loop sampleOpts baseState
        [.endAction none "r1", .endAction none "r2"]).map Ev.name = ["end"] :=
  (C2_end_skip_idempotent sampleOpts baseState none none "r1" "r2" "p" "p"
    rfl (by decide)).1

/-! ## C4 -/

/-- Every `spawn` in an effect trace is immediately followed by the
registration of the same unit of work. -/
def spawnsRegistered : List Eff → Bool
  | [] => true
  | .spawn k :: .register k' :: rest => decide (k = k') && spawnsRegistered rest
  | .spawn _ :: _ => false
  | _ :: rest => spawnsRegistered rest

theorem spawnsRegistered_replicate_addWorker (n : Nat) (l : List Eff) :
    spawnsRegistered (List.replicate n .engAddWorker ++ l) =
      spawnsRegistered l := by
  induction n with
  | zero => rfl
  | succ m ih => simpa [List.replicate_succ, spawnsRegistered] using ih

theorem spawnsRegistered_ite_prefix (c : Prop) [Decidable c] (n : Nat)
    (k : BgKind) :
    spawnsRegistered ((if c then List.replicate n Eff.engAddWorker else []) ++
      [Eff.spawn k, Eff.register k]) = true := by
  split
  · rw [spawnsRegistered_replicate_addWorker]
    simp [spawnsRegistered]
  · simp [spawnsRegistered]

theorem improveBranch_trace_registered (opts : Opts) (st : DState)
    (q : String) (ntid : Option String) (confirm : AgentResp)
    (simple : StepResp) :
    spawnsRegistered (improveBranch opts st q ntid confirm simple).trace =
      true := by
  unfold improveBranch
  dsimp only
  split
  · rfl
  · generalize (if opts.hasAttaches = true then true else question_confirm confirm) = isc
    cases isc
    · rw [if_pos (by decide : ¬(false = true))]
      cases simple <;> simp [spawnsRegistered]
    · rw [if_neg (by decide : ¬¬(true = true))]
      cases ntid with
      | none =>
          dsimp only
          split <;>
            simp [spawnsRegistered, spawnsRegistered_replicate_addWorker,
              spawnsRegistered_ite_prefix]
      | some tid =>
          dsimp only
          split <;> (dsimp only; split <;>
            simp [spawnsRegistered, spawnsRegistered_replicate_addWorker,
              spawnsRegistered_ite_prefix])

theorem newTaskStateBranch_trace_registered (opts : Opts) (st : DState)
    (data : PV) (oldResult : String) (confirm : AgentResp)
    (simple : StepResp) (decompValid : Bool) (decomp : DecomposeOut)
    (summary : SummaryResp) :
    spawnsRegistered (newTaskStateBranch opts st data oldResult confirm
      simple decompValid decomp summary).trace = true := by
  unfold newTaskStateBranch
  split
  · rfl
  · dsimp only
    split <;> first
      | rfl
      | (split <;> first
          | rfl
          | (split <;> rfl))

/-- C4: every unit of background work the dispatcher spawns — the
decomposition task, engine execution via `node_start` (from Start and from
Supplement), and the MCP install — is registered with the task lock
immediately after it is spawned, on every action and in every state. -/
theorem C4_background_registered (opts : Opts) (st : DState) (a : Act) :
    spawnsRegistered (step_solve_action opts st a).trace = true := by
  by_cases hb : st.startEventLoop = true
  · rw [step_solve_action.eq_def, if_pos hb]
    cases a <;> apply improveBranch_trace_registered
  · rw [step_solve_action.eq_def, if_neg hb]
    cases a with
    | improve q ntid confirm simple => apply improveBranch_trace_registered
    | updateTask tasks =>
        rw [dispatchAct.eq_def]; try dsimp only; cases st.camelTask <;> rfl
    | addTask c tid pid =>
        rw [dispatchAct.eq_def]; try dsimp only
        split
        · rfl
        · split
          · rfl
          · split <;> rfl
    | removeTask tid pid =>
        rw [dispatchAct.eq_def]; try dsimp only; split <;> rfl
    | skipTask pid =>
        rw [dispatchAct.eq_def]; try dsimp only
        split
        · rfl
        · dsimp only
          split
          · split
            · split <;> rfl
            · rfl
          · rfl
    | start =>
        rw [dispatchAct.eq_def]; try dsimp only
        split
        · rfl
        · split
          · rfl
          · split <;> rfl
    | taskState data => rw [dispatchAct.eq_def]; try dsimp only; rfl
    | newTaskState data oldResult confirm simple v dcp summ =>
        rw [dispatchAct.eq_def]; try dsimp only; apply newTaskStateBranch_trace_registered
    | passthrough k data => rw [dispatchAct.eq_def]; try dsimp only; rfl
    | writeFile d p => rw [dispatchAct.eq_def]; try dsimp only; rfl
    | notice d p => rw [dispatchAct.eq_def]; try dsimp only; rfl
    | terminal d p => rw [dispatchAct.eq_def]; try dsimp only; rfl
    | installMcp => rw [dispatchAct.eq_def]; try dsimp only; split <;> rfl
    | pauseAct => rw [dispatchAct.eq_def]; try dsimp only; split <;> rfl
    | resumeAct => rw [dispatchAct.eq_def]; try dsimp only; split <;> rfl
    | decomposeText a b c => rw [dispatchAct.eq_def]; try dsimp only; rfl
    | decomposeProgress data => rw [dispatchAct.eq_def]; try dsimp only; rfl
    | newAgent => rw [dispatchAct.eq_def]; try dsimp only; split <;> rfl
    | endAction d r =>
        rw [dispatchAct.eq_def]; try dsimp only
        split
        · rfl
        · dsimp only
          split <;> rfl
    | supplement q =>
        rw [dispatchAct.eq_def]; try dsimp only
        split
        · rfl
        · dsimp only
          split <;> rfl
    | budgetNotEnough =>
        rw [dispatchAct.eq_def]; try dsimp only
        split <;> rfl
    | stopAction =>
        rw [dispatchAct.eq_def]; try dsimp only
        split
        · split <;> rfl
        · rfl

/-! ## C5 -/

/-- A state in which an engine exists but `_running` is `False`
(as after decomposition, before Start launched execution). -/
def c5State : DState :=
  { baseState with workforce := some ⟨false, false⟩,
                   camelTask := some (TaskT.mk "t1" "c" "" "" []) }

/-- Counterexample to C5 as stated: with an engine present but not running,
the Stop branch never invokes the immediate stop — `workforce.stop()` is
guarded by `workforce._running` — only the graceful stop and the cleanup
run. -/
theorem C5_counterexample :
    c5State.workforce.isSome = true ∧
    (step_solve_action sampleOpts c5State .stopAction).trace =
      [Eff.engStopGraceful, Eff.deleteTaskLock] ∧
    Eff.engStop ∉ (step_solve_action sampleOpts c5State .stopAction).trace := by
  refine ⟨rfl, rfl, ?_⟩
  decide

/-- C5 (amended): past the bootstrap iteration, processing Stop emits no
event, terminates the loop, and performs `delete_task_lock` exactly once;
when an engine exists its graceful stop is always invoked, and the
immediate stop is invoked exactly when the engine reports running; no
stream event is emitted by the Stop step or by any queued action after
it. -/
theorem C5_amended (opts : Opts) (st : DState)
    (hboot : st.startEventLoop = false) :
    (step_solve_action opts st .stopAction).events = [] ∧
    (step_solve_action opts st .stopAction).term = true ∧
    (step_solve_action opts st .stopAction).trace =
      (match st.workforce with
       | some wf => (if wf.running then [Eff.engStop] else []) ++
           [Eff.engStopGraceful]
       | none => []) ++ [Eff.deleteTaskLock] ∧
    (step_solve_action opts st .stopAction).trace.count Eff.deleteTaskLock
      = 1 ∧
    (st.workforce.isSome = true →
      Eff.engStopGraceful ∈ (step_solve_action opts st .stopAction).trace) ∧
    (∀ rest : List Act,
      step_solve_loop opts st (.stopAction :: rest) = []) := by
  have hstep : step_solve_action opts st .stopAction =
      ⟨[], st,
       (match st.workforce with
        | some wf => (if wf.running then [Eff.engStop] else []) ++
            [Eff.engStopGraceful]
        | none => []) ++ [Eff.deleteTaskLock], true⟩ := by
    simp [step_solve_action, dispatchAct, hboot]
  refine ⟨?_, ?_, ?_, ?_, ?_, ?_⟩
  · rw [hstep]
  · rw [hstep]
  · rw [hstep]
  · rw [hstep]
    cases hw : st.workforce with
    | none => rfl
    | some wf => cases hr : wf.running <;> simp [hr, List.count_cons]
  · intro hsome
    rw [hstep]
    cases hw : st.workforce with
    | none => simp [hw] at hsome
    | some wf => cases hr : wf.running <;> simp [hr]
  · intro rest
    rw [step_solve_loop, hstep]
    simp

/-- Witness: the amended claim at a concrete state with a running engine. -/
theorem C5_amended_witness :
    Eff.engStopGraceful ∈
      (step_solve_action sampleOpts
        { baseState with workforce := some ⟨true, false⟩ }
        .stopAction).trace :=
  (C5_amended sampleOpts { baseState with workforce := some ⟨true, false⟩ }
    rfl).2.2.2.2.1 rfl

/-! ## Sanity checks of the embedding on concrete inputs

The first example reproduces `test_update_sub_tasks_success` from
`backend/tests/unit/service/test_chat_service.py`. -/

example :
    update_sub_tasks
      [TaskT.mk "task_1" "Original Content 1" "" "" [],
       TaskT.mk "task_2" "Original Content 2" "" "" [],
       TaskT.mk "task_3" "Original Content 3" "" "" []]
      [("task_2", "Updated Content 2"), ("task_3", "Updated Content 3")] =
    [TaskT.mk "task_2" "Updated Content 2" "" "" [],
     TaskT.mk "task_3" "Updated Content 3" "" "" []] := by rfl

example : question_confirm (.msg "YES") = true := by decide

example : question_confirm (.msg "  no  ") = false := by decide

example : question_confirm (.msg " ") = false := by decide

example :
    stripCurrentTask "ctx=== CURRENT TASK ===  real task " = "real task" := by
  decide

example : stripCurrentTask "plain" = "plain" := by decide

example :
    timeout_stream_wrapper 600 [.ev 10 "a", .ev 700 "b"] =
      ([.data "a"], .idleTimeout) := by rfl

example :
    timeout_stream_wrapper 600 [.ev 10 "a", .cancel 0] =
      ([.data "a"], .cancelled) := by rfl

example :
    collectFiles c6fs "/w1" =
      ["/w1/b.txt", "/w1/a.txt", "/w1/src/c.txt"] := by rfl

example :
    build_conversation_context_files c6fs c6hist2 =
      List.insertionSort (· ≤ ·)
        ["/w1/b.txt", "/w1/a.txt", "/w1/src/c.txt", "/w2/b.txt"] := by
  rw [build_conversation_context_files]
  rfl

/-- Scenario A of the spec: an Improve classified simple yields exactly one
`wait_confirm` and leaves the status at `confirming`. -/
example :
    (step_solve_action sampleOpts baseState
        (.improve "hello" none (.msg "no") (.ok ["Hi there"]))).events.map
      Ev.name = ["wait_confirm"] := by rfl

example :
    (step_solve_action sampleOpts baseState
        (.improve "hello" none (.msg "no") (.ok ["Hi there"]))).st.status =
      Status.confirming := by rfl

/-- A complex Improve emits `confirmed` and spawns the decomposition. -/
example :
    (step_solve_action sampleOpts baseState
        (.improve "build it" none (.msg "yes") (.ok []))).events.map
      Ev.name = ["confirmed"] := by rfl

example :
    handle_decompose_append_task (TaskT.mk "t" "c" "OPEN" "" []) true
        (.direct [TaskT.mk "t.1" "s1" "" "" []]) =
      (TaskT.mk "t" "c" "FAILED" "" [TaskT.mk "t.1" "s1" "" "" []],
       [TaskT.mk "t.1" "s1" "" "" []]) := by rfl

example : dictOf [("a", "1"), ("b", "2"), ("a", "3")] =
    [("b", "2"), ("a", "3")] := by rfl

/-- Scenario D of the spec: SkipTask then Improve — the skip emits `end`,
the new Improve is accepted, and the history retains the skip's
`task_result` entry alongside the new turn's entry. -/
example :
    (step_solve_loop sampleOpts baseState
        [.skipTask "p1", .improve "continue" none (.msg "no") (.ok ["ok"])]).map
      Ev.name = ["end", "wait_confirm"] := by rfl

example :
    ((step_solve_action sampleOpts
        (step_solve_action sampleOpts baseState (.skipTask "p1")).st
        (.improve "continue" none (.msg "no") (.ok ["ok"]))).st.history =
      [⟨.task_result,
         .record "Task t1" "<summary>Task stopped</summary>Task stopped by user"
           "/wd"⟩,
       ⟨.assistant, .text "ok"⟩]) := by rfl

end Eigent
